import Mathlib

/-!
Shallow embedding of the OS RACER multi-threaded simulation kernel
(src/main.cpp) and verification of its specified properties.

Machine floats of the source are modelled as exact rationals; every
numeric literal below is the exact decimal value of the corresponding
C++ constant.  The shared mutable globals touched by one physics-thread
iteration (the player PCB, the game-state cell and the one-shot sound
signals and obstacle-warning cells) are gathered into one `Kernel`
record, and each stage of the iteration is a pure function on it.
-/

namespace OSRacer

/-- Road half-width limit `ROAD_WIDTH_LIMIT` (src/main.cpp:53). -/
def ROAD_WIDTH_LIMIT : ℚ := 1

/-- Car half width `PLAYER_HALF_WIDTH = 0.18f` (src/main.cpp:55). -/
def PLAYER_HALF_WIDTH : ℚ := 18/100

/-- Top speed `MAX_SPEED = 50.0f` (src/main.cpp:58). -/
def MAX_SPEED : ℚ := 50

/-- Acceleration `ACCELERATION = 17.0f` (src/main.cpp:59). -/
def ACCELERATION : ℚ := 17

/-- Deceleration `DECELERATION = 20.0f` (src/main.cpp:60). -/
def DECELERATION : ℚ := 20

/-- Per-tick friction `FRICTION = 0.9999f` (src/main.cpp:61). -/
def FRICTION : ℚ := 9999/10000

/-- Lateral force factor `LATERAL_FACTOR = 0.0004f` (src/main.cpp:64). -/
def LATERAL_FACTOR : ℚ := 4/10000

/-- Steering compensation `STEER_COMPENSATION = 0.002f` (src/main.cpp:65). -/
def STEER_COMPENSATION : ℚ := 2/1000

/-- Heading turn rate `HEADING_TURN_SPEED = 0.4f` (src/main.cpp:68). -/
def HEADING_TURN_SPEED : ℚ := 2/5

/-- Heading drift factor `HEADING_DRIFT_FACTOR = 0.004f` (src/main.cpp:69). -/
def HEADING_DRIFT_FACTOR : ℚ := 4/1000

/-- Fixed physics step `DELTA_T = 1 / 240` (src/main.cpp:49-50). -/
def DELTA_T : ℚ := 1/240

/-- Game states (src/main.cpp:79). -/
inductive GameState
  | BOOT_MENU
  | MAP_SELECT
  | KERNEL_RUNNING
  | GAME_WIN
  | GAME_OVER
  | SYSTEM_HALT
deriving DecidableEq, Repr

/-- One obstacle inside a segment (src/main.cpp:101-105). -/
structure Obstacle where
  fSegDistance : ℚ
  fOffsetX : ℚ
  fWidth : ℚ
deriving DecidableEq, Repr

/-- One track segment (src/main.cpp:107-111). -/
structure TrackSegment where
  fCurvature : ℚ
  fDistance : ℚ
  vecObstacles : List Obstacle
deriving DecidableEq, Repr

/-- The player PCB (src/main.cpp:86-96). -/
structure PlayerPCB where
  fX_Register : ℚ
  fSpeed : ℚ
  fDistance : ℚ
  fCurvature : ℚ
  fPlayerCurvature : ℚ
  fHeadingAngle : ℚ
  bCrashed : Bool
  nSteerState : Int
deriving DecidableEq, Repr

/-- Default-constructed PCB, the target of `Reset` (src/main.cpp:87-95). -/
def PlayerPCB.reset : PlayerPCB := ⟨0, 0, 0, 0, 0, 0, false, 0⟩

/-- The continuous input registers sampled by one physics step
(src/main.cpp:128-130). -/
structure Inputs where
  input_steer : Int
  input_accel : Bool
  input_brake : Bool
deriving DecidableEq, Repr

/-- The shared state one physics-thread iteration reads and writes: the PCB,
the game-state cell (src/main.cpp:80), the one-shot sound signals
(src/main.cpp:147-149) and the obstacle-warning cells (src/main.cpp:142-144). -/
structure Kernel where
  player : PlayerPCB
  currentState : GameState
  sound_crash : Bool
  sound_gameover : Bool
  sound_win : Bool
  warnObstacle : Bool
  warnObstacleDist : ℚ
  warnObstacleOffsetX : ℚ
deriving DecidableEq, Repr

/-- Track table `BuildTrackData` (src/main.cpp:732-776); floats written as
exact rationals. -/
def BuildTrackData (id : ℕ) : List TrackSegment :=
  if id = 1 then
    [⟨0, 80, []⟩, ⟨3/5, 250, []⟩, ⟨-(3/5), 250, []⟩, ⟨0, 100, []⟩,
     ⟨4/5, 200, []⟩, ⟨0, 120, []⟩]
  else if id = 2 then
    [⟨0, 100, []⟩, ⟨7/10, 150, []⟩, ⟨-(1/2), 150, []⟩, ⟨9/10, 200, []⟩,
     ⟨0, 100, [⟨20, 2/5, 3/10⟩, ⟨70, -(1/2), 2/5⟩]⟩,
     ⟨-(4/5), 180, [⟨80, 3/5, 3/10⟩]⟩,
     ⟨3/5, 200, []⟩, ⟨0, 150, []⟩, ⟨1, 120, []⟩, ⟨0, 100, []⟩]
  else if id = 3 then
    [⟨0, 100, []⟩,
     ⟨4/5, 200, [⟨50, -(3/5), 3/10⟩, ⟨150, 3/5, 3/10⟩]⟩,
     ⟨-(3/5), 150, []⟩,
     ⟨3/5, 180, [⟨40, 0, 1/2⟩]⟩,
     ⟨-(4/5), 200, []⟩,
     ⟨1/2, 150, [⟨100, -(2/5), 2/5⟩]⟩,
     ⟨-(1/2), 150, []⟩,
     ⟨4/5, 200, [⟨70, 3/10, 1/5⟩]⟩,
     ⟨-(4/5), 200, []⟩, ⟨0, 100, []⟩]
  else []

/-- Total track length accumulated by `LoadMap` (src/main.cpp:790-791). -/
def totalTrackLength (track : List TrackSegment) : ℚ :=
  (track.map (fun s => s.fDistance)).sum

/-- The out-of-road condition of `EnforceBoundaryProtection`
(src/main.cpp:861-863). -/
def boundaryHit (x : ℚ) : Prop :=
  x - PLAYER_HALF_WIDTH ≤ -ROAD_WIDTH_LIMIT ∨
  x + PLAYER_HALF_WIDTH ≥ ROAD_WIDTH_LIMIT

instance : DecidablePred boundaryHit := fun x => by
  unfold boundaryHit; infer_instance

/-- The crash mutation shared by both detectors: set `bCrashed`, zero the
speed, transition to `GAME_OVER` and raise the crash and game-over signals
(src/main.cpp:864-869 and 896-900). -/
def crashedKernel (k : Kernel) : Kernel :=
  { k with
    player := { k.player with bCrashed := true, fSpeed := 0 },
    currentState := GameState.GAME_OVER,
    sound_crash := true,
    sound_gameover := true }

/-- `EnforceBoundaryProtection` (src/main.cpp:859-872). -/
def EnforceBoundaryProtection (k : Kernel) : Kernel :=
  if boundaryHit k.player.fX_Register then
    if ¬ k.player.bCrashed then crashedKernel k else k
  else k

/-- The segment scan of the physics integrator (src/main.cpp:985-991):
linear scan subtracting segment lengths; returns the active segment index
and the in-segment offset. -/
def FindSegment : List TrackSegment → ℚ → ℕ × ℚ
  | [], pos => (0, pos)
  | seg :: rest, pos =>
    if pos ≥ seg.fDistance then
      let r := FindSegment rest (pos - seg.fDistance)
      (r.1 + 1, r.2)
    else (0, pos)

/-- The segment scan of the collision detector (src/main.cpp:878-885):
same loop, additionally accumulating the segment start distance. -/
def FindSegmentC : List TrackSegment → ℚ → ℕ × ℚ × ℚ
  | [], pos => (0, pos, 0)
  | seg :: rest, pos =>
    if pos ≥ seg.fDistance then
      let r := FindSegmentC rest (pos - seg.fDistance)
      (r.1 + 1, r.2.1, r.2.2 + seg.fDistance)
    else (0, pos, 0)

/-- The lateral interval-overlap test of the collision detector
(src/main.cpp:891-895). -/
def obstacleOverlap (x : ℚ) (obs : Obstacle) : Bool :=
  let fPlayerLeft := x - PLAYER_HALF_WIDTH
  let fPlayerRight := x + PLAYER_HALF_WIDTH
  let fObsLeft := obs.fOffsetX - obs.fWidth / 2
  let fObsRight := obs.fOffsetX + obs.fWidth / 2
  decide (max fPlayerLeft fObsLeft < min fPlayerRight fObsRight)

/-- The longitudinal activation window of an obstacle (src/main.cpp:890). -/
def obstacleWindow (fDistInSeg : ℚ) (obs : Obstacle) : Bool :=
  decide (fDistInSeg ≥ obs.fSegDistance - 1/2 ∧
          fDistInSeg ≤ obs.fSegDistance + 1/2)

/-- The obstacle loop of `CheckObstacleCollision` (src/main.cpp:889-903):
first obstacle in list order that is inside the window and overlaps wins. -/
def scanObstacles (x fDistInSeg : ℚ) : List Obstacle → Bool
  | [] => false
  | obs :: rest =>
    if obstacleWindow fDistInSeg obs then
      if obstacleOverlap x obs then true
      else scanObstacles x fDistInSeg rest
    else scanObstacles x fDistInSeg rest

/-- `CheckObstacleCollision` (src/main.cpp:874-906). -/
def CheckObstacleCollision (track : List TrackSegment) (k : Kernel) : Kernel :=
  if k.player.bCrashed ∨ k.currentState ≠ GameState.KERNEL_RUNNING then k
  else
    let r := FindSegmentC track k.player.fDistance
    match track.get? r.1 with
    | some seg =>
      if scanObstacles k.player.fX_Register r.2.1 seg.vecObstacles then
        crashedKernel k
      else k
    | none => k

/-- The longitudinal speed control of one fixed step (src/main.cpp:968-974):
accelerate or apply friction, then brake, or force zero when crashed. -/
def speedControl (inp : Inputs) (p : PlayerPCB) : ℚ :=
  if ¬ p.bCrashed then
    let s := if inp.input_accel then p.fSpeed + ACCELERATION * DELTA_T
             else p.fSpeed * FRICTION
    if inp.input_brake then s - DECELERATION * DELTA_T else s
  else 0

/-- The speed clamp (src/main.cpp:976). -/
def clampSpeed (s : ℚ) : ℚ := max (-15) (min MAX_SPEED s)

/-- The `KERNEL_RUNNING` block of one fixed physics step
(src/main.cpp:964-1008), from the steer latch to the heading update,
including the win check and clamp (src/main.cpp:979-983). -/
def RunningStep (track : List TrackSegment) (fTotalTrackLength : ℚ)
    (inp : Inputs) (k : Kernel) : Kernel :=
  if k.currentState = GameState.KERNEL_RUNNING then
    let p := k.player
    let speed2 := clampSpeed (speedControl inp p)
    let dist1 := p.fDistance + speed2 * DELTA_T
    let dw : ℚ × GameState × Bool :=
      if dist1 ≥ fTotalTrackLength then (fTotalTrackLength, GameState.GAME_WIN, true)
      else (dist1, k.currentState, k.sound_win)
    let dist2 := dw.1
    let st2 := dw.2.1
    let win2 := dw.2.2
    let fs := FindSegment track dist2
    let targetCurv :=
      match track.get? fs.1 with
      | some seg => seg.fCurvature
      | none => 0
    let curv2 := p.fCurvature + (targetCurv - p.fCurvature) * DELTA_T * 3
    let pcurv2 := p.fPlayerCurvature + curv2 * DELTA_T * speed2 * (1/100)
    let steerInput := (inp.input_steer : ℚ) * (1/2)
    let fInertiaSlide := -curv2 * speed2 * LATERAL_FACTOR
    let compensation := steerInput * STEER_COMPENSATION
    let headingDrift := p.fHeadingAngle * speed2 * HEADING_DRIFT_FACTOR
    let fNetForce := (fInertiaSlide + compensation + headingDrift) * 40
    let x2 := p.fX_Register + fNetForce * DELTA_T
    let heading2 :=
      if inp.input_steer = -1 then p.fHeadingAngle - HEADING_TURN_SPEED * DELTA_T
      else if inp.input_steer = 1 then p.fHeadingAngle + HEADING_TURN_SPEED * DELTA_T
      else p.fHeadingAngle * (19/20)
    { k with
      currentState := st2,
      sound_win := win2,
      player := { p with
        nSteerState := inp.input_steer,
        fSpeed := speed2,
        fDistance := dist2,
        fCurvature := curv2,
        fPlayerCurvature := pcurv2,
        fX_Register := x2,
        fHeadingAngle := heading2 } }
  else k

/-- The inner obstacle loop of the warning scan (src/main.cpp:1023-1034). -/
def scanWarnObs (playerDist acc : ℚ) : List Obstacle → Option (ℚ × ℚ)
  | [] => none
  | obs :: rest =>
    let g := acc + obs.fSegDistance
    if g > playerDist ∧ g - playerDist ≤ 50 then
      some (g - playerDist, obs.fOffsetX)
    else scanWarnObs playerDist acc rest

/-- The outer segment loop of the warning scan (src/main.cpp:1021-1036). -/
def scanWarnSegs (playerDist : ℚ) : ℚ → List TrackSegment → Option (ℚ × ℚ)
  | _, [] => none
  | acc, seg :: rest =>
    match scanWarnObs playerDist acc seg.vecObstacles with
    | some r => some r
    | none => scanWarnSegs playerDist (acc + seg.fDistance) rest

/-- The obstacle-warning stage (src/main.cpp:1014-1046). -/
def WarningStage (track : List TrackSegment) (k : Kernel) : Kernel :=
  if k.currentState = GameState.KERNEL_RUNNING then
    match scanWarnSegs k.player.fDistance 0 track with
    | some r =>
      { k with warnObstacle := true, warnObstacleDist := r.1,
               warnObstacleOffsetX := r.2 }
    | none => { k with warnObstacle := false }
  else { k with warnObstacle := false }

/-- One full physics-thread inner iteration (src/main.cpp:961-1048):
the running-state block, the boundary check, the obstacle check, and the
warning scan, in source order. -/
def PhysicsIter (track : List TrackSegment) (L : ℚ) (inp : Inputs)
    (k : Kernel) : Kernel :=
  WarningStage track
    (CheckObstacleCollision track
      (EnforceBoundaryProtection (RunningStep track L inp k)))

/-- The accumulator while-loop of the physics thread (src/main.cpp:961-1049),
generic in the loop body; returns the step count, the residual accumulator
and the final state.  The `0 < dt` conjunct is a termination guard only; in
the source `dt = DELTA_T > 0` is a constant, so for positive `dt` the guard
is exactly the source condition `accumulator >= dt`. -/
def AccumLoop {α : Type} (f : α → α) (dt : ℚ) (acc : ℚ) (s : α) : ℕ × ℚ × α :=
  if h : 0 < dt ∧ dt ≤ acc then
    let r := AccumLoop f dt (acc - dt) (f s)
    (r.1 + 1, r.2)
  else (0, acc, s)
termination_by (⌊acc / dt⌋).toNat
decreasing_by
  obtain ⟨hdt, hacc⟩ := h
  have h1 : (1 : ℚ) ≤ acc / dt := (le_div_iff₀ hdt).mpr (by linarith)
  have h2 : (1 : ℤ) ≤ ⌊acc / dt⌋ := by exact_mod_cast Int.le_floor.mpr (by exact_mod_cast h1)
  have h3 : (acc - dt) / dt = acc / dt - 1 := by
    field_simp
  have h4 : ⌊(acc - dt) / dt⌋ = ⌊acc / dt⌋ - 1 := by
    rw [h3]
    exact_mod_cast Int.floor_sub_int (acc / dt) 1
  omega

/-- Nonempty open-interval overlap of the vehicle span
`(x − halfWidth, x + halfWidth)` and the obstacle span
`(lateralOffset − width/2, lateralOffset + width/2)`, stated the way the
spec words it (a common lateral point strictly inside both spans). -/
def openOverlapSpec (x : ℚ) (obs : Obstacle) : Prop :=
  ∃ t : ℚ, x - PLAYER_HALF_WIDTH < t ∧ t < x + PLAYER_HALF_WIDTH ∧
    obs.fOffsetX - obs.fWidth / 2 < t ∧ t < obs.fOffsetX + obs.fWidth / 2

/-- Spec-side collision predicate: some obstacle of the active segment
(resolved by the integrator's segment scan, spec 4.3) whose `segOffset` is
within ±0.5 of the in-segment offset overlaps the vehicle laterally. -/
def obstacleHitSpec (track : List TrackSegment) (dist x : ℚ) : Prop :=
  ∃ seg, track.get? (FindSegment track dist).1 = some seg ∧
    ∃ obs ∈ seg.vecObstacles,
      |(FindSegment track dist).2 - obs.fSegDistance| ≤ 1/2 ∧
      openOverlapSpec x obs

/-- State of one edge flag: the sampler's previous raw key state
(`lastSpace` and friends, src/main.cpp:912) and the atomic flag cell. -/
structure EdgeState where
  last : Bool
  flag : Bool
deriving DecidableEq, Repr

/-- Interleaved events on one edge flag: a sampler pass observing raw key
state `b` (src/main.cpp:922-924), or the designated consumer's atomic
exchange-to-false (e.g. src/main.cpp:1096, 1114-1118, 1474, 1576). -/
inductive EdgeEvent
  | sample (b : Bool)
  | consume
deriving DecidableEq, Repr

/-- Effect of one event on the cell; the second component counts 1 exactly
when a consume observes `true`. -/
def edgeStep (s : EdgeState) : EdgeEvent → EdgeState × ℕ
  | EdgeEvent.sample b => (⟨b, s.flag || (b && !s.last)⟩, 0)
  | EdgeEvent.consume => (⟨s.last, false⟩, if s.flag then 1 else 0)

/-- Run an interleaved trace; returns the final cell state and the number of
`true` observations made by the consumer. -/
def edgeRun (s : EdgeState) : List EdgeEvent → EdgeState × ℕ
  | [] => (s, 0)
  | e :: t =>
    ((edgeRun (edgeStep s e).1 t).1,
     (edgeStep s e).2 + (edgeRun (edgeStep s e).1 t).2)

/-- The raw key states the sampler sees along a trace, in order. -/
def eventSamples : List EdgeEvent → List Bool
  | [] => []
  | EdgeEvent.sample b :: t => b :: eventSamples t
  | EdgeEvent.consume :: t => eventSamples t

/-- Number of rising edges in a key-state sequence, from a previous state. -/
def edgeCount : Bool → List Bool → ℕ
  | _, [] => 0
  | prev, b :: t => (if b && !prev then 1 else 0) + edgeCount b t

/-- Final sampler-local key state after a key-state sequence. -/
def lastSeen : Bool → List Bool → Bool
  | prev, [] => prev
  | _, b :: t => lastSeen b t

/-- A kernel snapshot for concrete evaluations: lateral position `x`,
distance `dist`, game state `st`, crash flag `crashed`; no pending signals
or warnings, all other PCB fields at their reset defaults. -/
def mkKernel (x dist : ℚ) (st : GameState) (crashed : Bool) : Kernel :=
  ⟨⟨x, 0, dist, 0, 0, 0, crashed, 0⟩, st, false, false, false, false, 0, 0⟩

/-- One-segment track holding the spec's concrete obstacle
(`lateralOffset = 0`, `width = 0.4`), placed at segment offset 10. -/
def c2Track : List TrackSegment := [⟨0, 100, [⟨10, 0, 2/5⟩]⟩]

/-! ### Helper lemmas about the individual stages -/

theorem EnforceBoundaryProtection_hit {k : Kernel}
    (h1 : k.player.bCrashed = false) (h2 : boundaryHit k.player.fX_Register) :
    EnforceBoundaryProtection k = crashedKernel k := by
  unfold EnforceBoundaryProtection
  rw [if_pos h2, if_pos (by simp [h1])]

theorem EnforceBoundaryProtection_id {k : Kernel}
    (h : k.player.bCrashed = true ∨ ¬ boundaryHit k.player.fX_Register) :
    EnforceBoundaryProtection k = k := by
  unfold EnforceBoundaryProtection
  rcases h with h | h
  · by_cases hb : boundaryHit k.player.fX_Register
    · rw [if_pos hb, if_neg (by simp [h])]
    · rw [if_neg hb]
  · rw [if_neg h]

theorem CheckObstacleCollision_id {track : List TrackSegment} {k : Kernel}
    (h : k.player.bCrashed = true ∨ k.currentState ≠ GameState.KERNEL_RUNNING) :
    CheckObstacleCollision track k = k := by
  unfold CheckObstacleCollision
  rw [if_pos h]

theorem WarningStage_fields (track : List TrackSegment) (k : Kernel) :
    (WarningStage track k).player = k.player ∧
    (WarningStage track k).currentState = k.currentState ∧
    (WarningStage track k).sound_crash = k.sound_crash ∧
    (WarningStage track k).sound_gameover = k.sound_gameover ∧
    (WarningStage track k).sound_win = k.sound_win := by
  unfold WarningStage
  split
  · cases scanWarnSegs k.player.fDistance 0 track <;> simp
  · simp

theorem WarningStage_notRunning {track : List TrackSegment} {k : Kernel}
    (h : k.currentState ≠ GameState.KERNEL_RUNNING) :
    WarningStage track k = { k with warnObstacle := false } := by
  unfold WarningStage
  rw [if_neg h]

theorem RunningStep_notRunning {track : List TrackSegment} {L : ℚ} {inp : Inputs}
    {k : Kernel} (h : k.currentState ≠ GameState.KERNEL_RUNNING) :
    RunningStep track L inp k = k := by
  unfold RunningStep
  rw [if_neg h]

theorem RunningStep_bCrashed (track : List TrackSegment) (L : ℚ) (inp : Inputs)
    (k : Kernel) :
    (RunningStep track L inp k).player.bCrashed = k.player.bCrashed := by
  unfold RunningStep
  split <;> rfl

theorem segScan_agree (track : List TrackSegment) : ∀ pos : ℚ,
    (FindSegmentC track pos).1 = (FindSegment track pos).1 ∧
    (FindSegmentC track pos).2.1 = (FindSegment track pos).2 := by
  induction track with
  | nil => intro pos; exact ⟨rfl, rfl⟩
  | cons seg rest ih =>
    intro pos
    by_cases hp : pos ≥ seg.fDistance <;>
      simp [FindSegment, FindSegmentC, hp,
            (ih (pos - seg.fDistance)).1, (ih (pos - seg.fDistance)).2]

theorem obstacleWindow_iff (d : ℚ) (obs : Obstacle) :
    obstacleWindow d obs = true ↔ |d - obs.fSegDistance| ≤ 1/2 := by
  unfold obstacleWindow
  simp only [decide_eq_true_eq, abs_sub_le_iff]
  constructor <;> intro h <;> exact ⟨by linarith [h.1, h.2], by linarith [h.1, h.2]⟩

theorem obstacleOverlap_iff (x : ℚ) (obs : Obstacle) :
    obstacleOverlap x obs = true ↔ openOverlapSpec x obs := by
  unfold obstacleOverlap openOverlapSpec
  simp only [decide_eq_true_eq]
  constructor
  · intro h
    obtain ⟨t, ht1, ht2⟩ := exists_between h
    exact ⟨t, lt_of_le_of_lt (le_max_left _ _) ht1,
           lt_of_lt_of_le ht2 (min_le_left _ _),
           lt_of_le_of_lt (le_max_right _ _) ht1,
           lt_of_lt_of_le ht2 (min_le_right _ _)⟩
  · rintro ⟨t, h1, h2, h3, h4⟩
    exact lt_trans (max_lt h1 h3) (lt_min h2 h4)

theorem scanObstacles_cons (x d : ℚ) (obs : Obstacle) (rest : List Obstacle) :
    scanObstacles x d (obs :: rest)
      = ((obstacleWindow d obs && obstacleOverlap x obs) || scanObstacles x d rest) := by
  have hstep : scanObstacles x d (obs :: rest)
      = if obstacleWindow d obs then
          (if obstacleOverlap x obs then true else scanObstacles x d rest)
        else scanObstacles x d rest := rfl
  rw [hstep]
  by_cases hw : obstacleWindow d obs <;> by_cases ho : obstacleOverlap x obs <;>
    simp [hw, ho]

theorem scanObstacles_iff (x d : ℚ) (l : List Obstacle) :
    scanObstacles x d l = true ↔
      ∃ obs ∈ l, |d - obs.fSegDistance| ≤ 1/2 ∧ openOverlapSpec x obs := by
  induction l with
  | nil => simp [scanObstacles]
  | cons obs rest ih =>
    rw [scanObstacles_cons]
    simp only [Bool.or_eq_true, Bool.and_eq_true, ih, obstacleWindow_iff,
               obstacleOverlap_iff, List.mem_cons]
    constructor
    · rintro (⟨hw, ho⟩ | ⟨o, ho1, ho2⟩)
      · exact ⟨obs, Or.inl rfl, hw, ho⟩
      · exact ⟨o, Or.inr ho1, ho2⟩
    · rintro ⟨o, ho1 | ho1, ho2⟩
      · subst ho1; exact Or.inl ho2
      · exact Or.inr ⟨o, ho1, ho2⟩

theorem AccumLoop_stop {α : Type} (f : α → α) {dt acc : ℚ} (s : α)
    (h : ¬ (0 < dt ∧ dt ≤ acc)) :
    AccumLoop f dt acc s = (0, acc, s) := by
  rw [AccumLoop, dif_neg h]

theorem AccumLoop_go {α : Type} (f : α → α) {dt acc : ℚ} (s : α)
    (h : 0 < dt ∧ dt ≤ acc) :
    AccumLoop f dt acc s
      = ((AccumLoop f dt (acc - dt) (f s)).1 + 1, (AccumLoop f dt (acc - dt) (f s)).2) := by
  rw [AccumLoop, dif_pos h]

theorem AccumLoop_spec {α : Type} (f : α → α) {dt : ℚ} (hdt : 0 < dt) :
    ∀ (n : ℕ) (acc : ℚ) (s : α), (⌊acc / dt⌋).toNat = n →
      AccumLoop f dt acc s = (n, acc - dt * n, f^[n] s) := by
  intro n
  induction n with
  | zero =>
    intro acc s hn
    have hlt : ¬ dt ≤ acc := by
      intro hle
      have h1 : (1 : ℚ) ≤ acc / dt := (le_div_iff₀ hdt).mpr (by linarith)
      have h2 : (1 : ℤ) ≤ ⌊acc / dt⌋ := Int.le_floor.mpr (by exact_mod_cast h1)
      omega
    rw [AccumLoop_stop f s (fun hc => hlt hc.2)]
    simp
  | succ m ih =>
    intro acc s hn
    have hle : dt ≤ acc := by
      by_contra hlt
      push_neg at hlt
      have h1 : acc / dt < 1 := (div_lt_one hdt).mpr hlt
      have h2 : ⌊acc / dt⌋ < (1 : ℤ) := Int.floor_lt.mpr (by exact_mod_cast h1)
      omega
    rw [AccumLoop_go f s ⟨hdt, hle⟩]
    have h3 : (acc - dt) / dt = acc / dt - 1 := by field_simp
    have h4 : ⌊(acc - dt) / dt⌋ = ⌊acc / dt⌋ - 1 := by
      rw [h3]; exact_mod_cast Int.floor_sub_int (acc / dt) 1
    have h5 : (⌊(acc - dt) / dt⌋).toNat = m := by omega
    rw [ih (acc - dt) (f s) h5]
    refine congrArg₂ Prod.mk rfl (congrArg₂ Prod.mk ?_ ?_)
    · push_cast; ring
    · exact (Function.iterate_succ_apply f m s).symm

theorem iterate_add_mul (c : ℚ) : ∀ (n : ℕ) (d : ℚ),
    (fun d => d + c)^[n] d = d + n * c
  | 0, d => by simp
  | n + 1, d => by
    rw [Function.iterate_succ_apply, iterate_add_mul c n]
    push_cast; ring

/-! ### Helper lemmas for the edge-flag model -/

theorem edgeRun_invariant : ∀ (t : List EdgeEvent) (l f : Bool),
    (if f = true then 1 else 0) + edgeCount l (eventSamples t) ≤ 1 →
    (edgeRun ⟨l, f⟩ t).2 + (if (edgeRun ⟨l, f⟩ t).1.flag = true then 1 else 0)
      = (if f = true then 1 else 0) + edgeCount l (eventSamples t) := by
  intro t
  induction t with
  | nil => intro l f _; simp [edgeRun, eventSamples, edgeCount]
  | cons e t ih =>
    intro l f h
    cases e with
    | sample b =>
      have hrun1 : (edgeRun ⟨l, f⟩ (EdgeEvent.sample b :: t)).2
          = 0 + (edgeRun ⟨b, f || (b && !l)⟩ t).2 := rfl
      have hrun2 : (edgeRun ⟨l, f⟩ (EdgeEvent.sample b :: t)).1
          = (edgeRun ⟨b, f || (b && !l)⟩ t).1 := rfl
      have hcnt : edgeCount l (eventSamples (EdgeEvent.sample b :: t))
          = (if (b && !l) = true then 1 else 0) + edgeCount b (eventSamples t) := rfl
      rw [hcnt] at h
      rw [hrun1, hrun2, hcnt]
      cases f
      · cases hbe : b && !l
        · rw [hbe] at h
          simp at h ⊢
          have hih := ih b false (by simp; omega)
          simp at hih
          omega
        · rw [hbe] at h
          simp at h ⊢
          have hih := ih b true (by simp; omega)
          simp at hih
          omega
      · cases hbe : b && !l
        · rw [hbe] at h
          simp at h ⊢
          have hih := ih b true (by simp; omega)
          simp at hih
          omega
        · rw [hbe] at h
          simp at h
    | consume =>
      have hrun1 : (edgeRun ⟨l, f⟩ (EdgeEvent.consume :: t)).2
          = (if f = true then 1 else 0) + (edgeRun ⟨l, false⟩ t).2 := rfl
      have hrun2 : (edgeRun ⟨l, f⟩ (EdgeEvent.consume :: t)).1
          = (edgeRun ⟨l, false⟩ t).1 := rfl
      have hcnt : edgeCount l (eventSamples (EdgeEvent.consume :: t))
          = edgeCount l (eventSamples t) := rfl
      rw [hcnt] at h
      rw [hrun1, hrun2, hcnt]
      cases f
      · simp at h ⊢
        have hih := ih l false (by simp; omega)
        simp at hih
        omega
      · simp at h ⊢
        have hih := ih l false (by simp; omega)
        simp at hih
        omega

theorem eventSamples_append (t1 t2 : List EdgeEvent) :
    eventSamples (t1 ++ t2) = eventSamples t1 ++ eventSamples t2 := by
  induction t1 with
  | nil => rfl
  | cons e t ih => cases e <;> simp [eventSamples, ih]

theorem edgeCount_append (xs : List Bool) : ∀ (l : Bool) (ys : List Bool),
    edgeCount l (xs ++ ys) = edgeCount l xs + edgeCount (lastSeen l xs) ys := by
  induction xs with
  | nil => intro l ys; simp [edgeCount, lastSeen]
  | cons b t ih => intro l ys; simp [edgeCount, lastSeen, ih b]; omega

theorem edgeRun_append (t1 : List EdgeEvent) : ∀ (s : EdgeState) (t2 : List EdgeEvent),
    edgeRun s (t1 ++ t2)
      = ((edgeRun (edgeRun s t1).1 t2).1,
         (edgeRun s t1).2 + (edgeRun (edgeRun s t1).1 t2).2) := by
  induction t1 with
  | nil => intro s t2; simp [edgeRun]
  | cons e t ih => intro s t2; simp [edgeRun, ih]; omega

theorem edgeRun_last (t : List EdgeEvent) : ∀ s : EdgeState,
    (edgeRun s t).1.last = lastSeen s.last (eventSamples t) := by
  induction t with
  | nil => intro s; rfl
  | cons e t ih =>
    intro s
    cases e <;> simp [edgeRun, edgeStep, eventSamples, lastSeen, ih]

theorem RunningStep_crashed_fields (track : List TrackSegment) (L : ℚ)
    (inp : Inputs) (k : Kernel) (hs : k.currentState = GameState.KERNEL_RUNNING)
    (hc : k.player.bCrashed = true) :
    (RunningStep track L inp k).player.fSpeed = 0 ∧
    (RunningStep track L inp k).player.fDistance
      = (if k.player.fDistance ≥ L then L else k.player.fDistance) ∧
    (RunningStep track L inp k).player.fX_Register
      = k.player.fX_Register
        + (inp.input_steer : ℚ) * (1/2) * STEER_COMPENSATION * 40 * DELTA_T ∧
    (RunningStep track L inp k).player.fHeadingAngle
      = (if inp.input_steer = -1 then
           k.player.fHeadingAngle - HEADING_TURN_SPEED * DELTA_T
         else if inp.input_steer = 1 then
           k.player.fHeadingAngle + HEADING_TURN_SPEED * DELTA_T
         else k.player.fHeadingAngle * (19/20)) := by
  have hsc : speedControl inp k.player = 0 := by simp [speedControl, hc]
  have hcl : clampSpeed (speedControl inp k.player) = 0 := by
    rw [hsc]; unfold clampSpeed MAX_SPEED
    rw [min_eq_right (by norm_num), max_eq_right (by norm_num)]
  refine ⟨?_, ?_, ?_, ?_⟩ <;> simp [RunningStep, hs, hcl]
  split <;> rfl

/-! ### Claim theorems -/

/-- C8: for every track and every distance value, the segment scan of the
collision detector (src/main.cpp:878-885) computes exactly the same active
segment index and the same in-segment offset as the segment scan the physics
integrator uses for its curvature lookup (src/main.cpp:985-991). -/
theorem C8_segment_resolution_agrees (track : List TrackSegment) (dist : ℚ) :
    (FindSegmentC track dist).1 = (FindSegment track dist).1 ∧
    (FindSegmentC track dist).2.1 = (FindSegment track dist).2 :=
  segScan_agree track dist

/-- C3: the boundary check crashes the vehicle iff `x − halfWidth ≤ −roadLimit`
or `x + halfWidth ≥ roadLimit` holds (halfWidth = 0.18, roadLimit = 1.0) and
the vehicle is not already crashed; on a crash it sets `crashed`, zeroes the
speed, moves the Game State to Over and raises the crash and game-over
signals; when the condition fails it leaves the whole kernel unchanged; and
concretely x = 0.80 does not trigger it (0.98 < 1.0) while x = 0.83 does
(1.01 ≥ 1.0). -/
theorem C3_boundary_check (k : Kernel) :
    (k.player.bCrashed = false → boundaryHit k.player.fX_Register →
       EnforceBoundaryProtection k = crashedKernel k) ∧
    (¬ boundaryHit k.player.fX_Register → EnforceBoundaryProtection k = k) ∧
    (k.player.bCrashed = true → EnforceBoundaryProtection k = k) ∧
    ¬ boundaryHit (4/5) ∧ boundaryHit (83/100) :=
  ⟨fun h1 h2 => EnforceBoundaryProtection_hit h1 h2,
   fun h => EnforceBoundaryProtection_id (Or.inr h),
   fun h => EnforceBoundaryProtection_id (Or.inl h),
   by norm_num [boundaryHit, ROAD_WIDTH_LIMIT, PLAYER_HALF_WIDTH],
   by norm_num [boundaryHit, ROAD_WIDTH_LIMIT, PLAYER_HALF_WIDTH]⟩

/-- Witness for C3: at x = 0.83 an uncrashed vehicle is crashed by the
boundary check. -/
theorem C3_boundary_check_witness :
    EnforceBoundaryProtection (mkKernel (83/100) 0 GameState.KERNEL_RUNNING false)
      = crashedKernel (mkKernel (83/100) 0 GameState.KERNEL_RUNNING false) :=
  (C3_boundary_check _).1 rfl
    (by norm_num [boundaryHit, ROAD_WIDTH_LIMIT, PLAYER_HALF_WIDTH, mkKernel])

/-- C2 counterexample: contrary to the claim, a vehicle at x = 0.19 inside the
obstacle's active window IS classified as colliding with the obstacle at
lateral offset 0, width 0.4: the vehicle span [0.01, 0.37] overlaps the
obstacle span [−0.2, 0.2], so the detector crashes the vehicle. -/
theorem C2_counterexample :
    (CheckObstacleCollision c2Track
        (mkKernel (19/100) 10 GameState.KERNEL_RUNNING false)).player.bCrashed
      = true := by
  norm_num [CheckObstacleCollision, c2Track, mkKernel, FindSegmentC, scanObstacles,
            obstacleWindow, obstacleOverlap, crashedKernel, PLAYER_HALF_WIDTH,
            List.get?]

/-- C2 amended: for the obstacle spanning [−0.2, 0.2] and vehicle half-width
0.18, inside the active window, x = 0.19 and x = 0.01 are classified as
colliding, while x = 0.5 is not and the kernel is left unchanged. -/
theorem C2_overlap_cases :
    (CheckObstacleCollision c2Track
        (mkKernel (19/100) 10 GameState.KERNEL_RUNNING false)).player.bCrashed
      = true ∧
    (CheckObstacleCollision c2Track
        (mkKernel (1/100) 10 GameState.KERNEL_RUNNING false)).player.bCrashed
      = true ∧
    CheckObstacleCollision c2Track (mkKernel (1/2) 10 GameState.KERNEL_RUNNING false)
      = mkKernel (1/2) 10 GameState.KERNEL_RUNNING false := by
  refine ⟨?_, ?_, ?_⟩ <;>
    norm_num [CheckObstacleCollision, c2Track, mkKernel, FindSegmentC, scanObstacles,
              obstacleWindow, obstacleOverlap, crashedKernel, PLAYER_HALF_WIDTH,
              List.get?]

/-- C4: the obstacle check runs only when the vehicle is not crashed and the
Game State is Running; under those guards it performs the crash mutation
exactly when some obstacle of the active segment (resolved by the integrator's
segment scan) has `segOffset` within ±0.5 of the in-segment offset and its
lateral span has a nonempty open-interval overlap with the vehicle span, and
otherwise it leaves the kernel unchanged. -/
theorem C4_obstacle_check (track : List TrackSegment) (k : Kernel) :
    (k.player.bCrashed = true ∨ k.currentState ≠ GameState.KERNEL_RUNNING →
       CheckObstacleCollision track k = k) ∧
    (k.player.bCrashed = false → k.currentState = GameState.KERNEL_RUNNING →
      ((CheckObstacleCollision track k = crashedKernel k) ↔
         obstacleHitSpec track k.player.fDistance k.player.fX_Register) ∧
      (¬ obstacleHitSpec track k.player.fDistance k.player.fX_Register →
         CheckObstacleCollision track k = k)) := by
  constructor
  · exact fun h => CheckObstacleCollision_id h
  · intro hc hs
    have hne : crashedKernel k ≠ k := by
      intro he
      have hb := congrArg (fun kk => kk.player.bCrashed) he
      simp [crashedKernel, hc] at hb
    have hguard : ¬ (k.player.bCrashed = true ∨
        k.currentState ≠ GameState.KERNEL_RUNNING) := by
      simp [hc, hs]
    have hCOC0 : CheckObstacleCollision track k
        = (match track.get? (FindSegmentC track k.player.fDistance).1 with
           | some seg =>
             if scanObstacles k.player.fX_Register
                 (FindSegmentC track k.player.fDistance).2.1 seg.vecObstacles then
               crashedKernel k
             else k
           | none => k) := by
      unfold CheckObstacleCollision
      rw [if_neg hguard]
    rw [(segScan_agree track k.player.fDistance).1,
        (segScan_agree track k.player.fDistance).2] at hCOC0
    rcases hget : track.get? (FindSegment track k.player.fDistance).1 with _ | seg
    · have hk : CheckObstacleCollision track k = k := by
        rw [hCOC0, hget]
      refine ⟨⟨fun he => ?_, fun hsp => ?_⟩, fun _ => hk⟩
      · rw [hk] at he; exact absurd he.symm hne
      · obtain ⟨seg2, hseg2, -⟩ := hsp
        rw [hget] at hseg2; cases hseg2
    · by_cases hscan : scanObstacles k.player.fX_Register
          (FindSegment track k.player.fDistance).2 seg.vecObstacles = true
      · have hk : CheckObstacleCollision track k = crashedKernel k := by
          rw [hCOC0, hget]; exact if_pos hscan
        have hspec : obstacleHitSpec track k.player.fDistance k.player.fX_Register :=
          ⟨seg, hget, (scanObstacles_iff _ _ _).mp hscan⟩
        exact ⟨⟨fun _ => hspec, fun _ => hk⟩, fun hno => absurd hspec hno⟩
      · have hk : CheckObstacleCollision track k = k := by
          rw [hCOC0, hget]; exact if_neg hscan
        have hnospec : ¬ obstacleHitSpec track k.player.fDistance
            k.player.fX_Register := by
          rintro ⟨seg2, hseg2, hex2⟩
          rw [hget] at hseg2
          injection hseg2 with hseg2
          subst hseg2
          exact hscan ((scanObstacles_iff _ _ _).mpr hex2)
        refine ⟨⟨fun he => ?_, fun hsp => absurd hsp hnospec⟩, fun _ => hk⟩
        rw [hk] at he; exact absurd he.symm hne

/-- Witness for C4: on an already crashed kernel the obstacle check is a
no-op. -/
theorem C4_obstacle_check_witness :
    CheckObstacleCollision c2Track (mkKernel 0 10 GameState.KERNEL_RUNNING true)
      = mkKernel 0 10 GameState.KERNEL_RUNNING true :=
  (C4_obstacle_check c2Track (mkKernel 0 10 GameState.KERNEL_RUNNING true)).1
    (Or.inl rfl)

/-- C6: a single rising edge recorded by the input sampler, no matter how many
further sampler iterations occur, is observed as true by the designated
test-and-clear consumer exactly once: over any interleaved trace whose sampled
key-state sequence contains exactly one rising edge, the edge lying within the
prefix `t1` that is followed by a consume, the consumer's total count of true
observations is exactly 1 — never zero and never more. -/
theorem C6_edge_exactly_once (l : Bool) (t1 t2 : List EdgeEvent)
    (hpre : edgeCount l (eventSamples t1) = 1)
    (htot : edgeCount l (eventSamples (t1 ++ EdgeEvent.consume :: t2)) = 1) :
    (edgeRun ⟨l, false⟩ (t1 ++ EdgeEvent.consume :: t2)).2 = 1 := by
  have hsplit : edgeCount l (eventSamples (t1 ++ EdgeEvent.consume :: t2))
      = edgeCount l (eventSamples t1)
        + edgeCount (lastSeen l (eventSamples t1)) (eventSamples t2) := by
    rw [eventSamples_append, edgeCount_append]
    rfl
  have hpost : edgeCount (lastSeen l (eventSamples t1)) (eventSamples t2) = 0 := by
    omega
  have hinv1 := edgeRun_invariant t1 l false (by simp [hpre])
  rw [edgeRun_append]
  set s1 := (edgeRun ⟨l, false⟩ t1).1 with hs1
  have hstep2 : (edgeRun s1 (EdgeEvent.consume :: t2)).2
      = (if s1.flag = true then 1 else 0) + (edgeRun ⟨s1.last, false⟩ t2).2 := rfl
  have hlast : s1.last = lastSeen l (eventSamples t1) := by
    rw [hs1]; exact edgeRun_last t1 ⟨l, false⟩
  have hrhs2 : edgeCount s1.last (eventSamples t2) = 0 := by
    rw [hlast]; exact hpost
  have hinv2 := edgeRun_invariant t2 s1.last false (by rw [hrhs2]; simp)
  rw [hrhs2] at hinv2
  simp at hinv2
  rw [hstep2]
  cases hf : s1.flag
  · rw [hf] at hinv1
    simp [hpre] at hinv1
    simp
    omega
  · rw [hf] at hinv1
    simp [hpre] at hinv1
    simp
    omega

/-- Witness for C6: the key goes down at the second sampler pass and stays
down; the consumer polls once after the edge and once more later: exactly one
true observation. -/
theorem C6_edge_exactly_once_witness :
    (edgeRun ⟨false, false⟩
        ([EdgeEvent.sample false, EdgeEvent.sample true, EdgeEvent.sample true]
          ++ EdgeEvent.consume :: [EdgeEvent.sample true, EdgeEvent.consume])).2
      = 1 :=
  C6_edge_exactly_once false _ _ (by decide) (by decide)

/-- C5: for any fixed-step size dt > 0 and any accumulated elapsed wall time
T ≥ 0 fed to the integrator loop, the loop performs exactly ⌊T/dt⌋ fixed-size
steps of any loop body, decrementing the accumulator by dt per step; the
residual accumulator is T − dt·⌊T/dt⌋ (i.e. T mod dt, shown to lie in
[0, dt)); and with a constant speed held across the steps the total distance
advanced is ⌊T/dt⌋ · (speed · dt). -/
theorem C5_accumulator (dt T : ℚ) (hdt : 0 < dt) (hT : 0 ≤ T) :
    (∀ (α : Type) (f : α → α) (s : α),
       ((AccumLoop f dt T s).1 : ℤ) = ⌊T / dt⌋ ∧
       (AccumLoop f dt T s).2.1 = T - dt * ⌊T / dt⌋) ∧
    (0 ≤ T - dt * ⌊T / dt⌋ ∧ T - dt * ⌊T / dt⌋ < dt) ∧
    (∀ v d0 : ℚ,
       (AccumLoop (fun d => d + v * dt) dt T d0).2.2
         = d0 + (⌊T / dt⌋ : ℚ) * (v * dt)) := by
  have hfl : 0 ≤ ⌊T / dt⌋ := Int.floor_nonneg.mpr (div_nonneg hT hdt.le)
  have hcast : ((⌊T / dt⌋.toNat : ℕ) : ℚ) = ((⌊T / dt⌋ : ℤ) : ℚ) := by
    exact_mod_cast Int.toNat_of_nonneg hfl
  refine ⟨?_, ⟨?_, ?_⟩, ?_⟩
  · intro α f s
    rw [AccumLoop_spec f hdt (⌊T / dt⌋).toNat T s rfl]
    constructor
    · exact_mod_cast Int.toNat_of_nonneg hfl
    · simp only []
      rw [hcast]
  · have h1 : ((⌊T / dt⌋ : ℤ) : ℚ) ≤ T / dt := Int.floor_le _
    have h2 : dt * ((⌊T / dt⌋ : ℤ) : ℚ) ≤ dt * (T / dt) :=
      mul_le_mul_of_nonneg_left h1 hdt.le
    have h3 : dt * (T / dt) = T := by field_simp
    linarith
  · have h1 : T / dt < ((⌊T / dt⌋ : ℤ) : ℚ) + 1 := Int.lt_floor_add_one _
    have h2 : dt * (T / dt) < dt * (((⌊T / dt⌋ : ℤ) : ℚ) + 1) :=
      (mul_lt_mul_left hdt).mpr h1
    have h3 : dt * (T / dt) = T := by field_simp
    nlinarith
  · intro v d0
    rw [AccumLoop_spec (fun d => d + v * dt) hdt (⌊T / dt⌋).toNat T d0 rfl]
    simp only []
    rw [iterate_add_mul, hcast]

/-- Witness for C5 at dt = 1/240, T = 1/100 and constant speed 3: the loop
advances the distance by ⌊T/dt⌋·(3·dt). -/
theorem C5_accumulator_witness :
    (AccumLoop (fun d => d + 3 * (1/240)) (1/240) (1/100) (0 : ℚ)).2.2
      = 0 + ((⌊(1/100 : ℚ) / (1/240)⌋ : ℤ) : ℚ) * (3 * (1/240)) :=
  (C5_accumulator (1/240) (1/100) (by norm_num) (by norm_num)).2.2 3 0

/-- C1 counterexample: from the Win state the Game State does not stay Win
under every physics iteration: with the vehicle uncrashed at x = 0.9 (out of
the road limits), the state-unguarded boundary check fires during the
iteration and moves the Game State from Win to Over. -/
theorem C1_counterexample :
    (PhysicsIter (BuildTrackData 1) 1000 ⟨0, false, false⟩
        (mkKernel (9/10) 1000 GameState.GAME_WIN false)).currentState
      ≠ GameState.GAME_WIN := by
  have h1 : RunningStep (BuildTrackData 1) 1000 ⟨0, false, false⟩
      (mkKernel (9/10) 1000 GameState.GAME_WIN false)
      = mkKernel (9/10) 1000 GameState.GAME_WIN false :=
    RunningStep_notRunning (by decide)
  have h2 : EnforceBoundaryProtection (mkKernel (9/10) 1000 GameState.GAME_WIN false)
      = crashedKernel (mkKernel (9/10) 1000 GameState.GAME_WIN false) :=
    EnforceBoundaryProtection_hit rfl
      (by norm_num [boundaryHit, mkKernel, ROAD_WIDTH_LIMIT, PLAYER_HALF_WIDTH])
  unfold PhysicsIter
  rw [h1, h2, CheckObstacleCollision_id (Or.inl rfl),
      WarningStage_notRunning (by decide)]
  decide

/-- C1 (amended): when the distance computed by a Running-state step reaches
the track length, the step clamps the distance to exactly the track length,
sets the Game State to Win and raises the win signal; thereafter a physics
iteration leaves the whole kernel unchanged apart from clearing the warning
flag — in particular the Game State stays Win — whenever the vehicle is
crashed or inside the road limits; but when the vehicle is not crashed and at
or beyond a road limit, the state-unguarded boundary check moves the Game
State from Win to Over. -/
theorem C1_win_freeze (track : List TrackSegment) (L : ℚ) (inp : Inputs)
    (k : Kernel) :
    (k.currentState = GameState.KERNEL_RUNNING →
       k.player.fDistance + clampSpeed (speedControl inp k.player) * DELTA_T ≥ L →
       (RunningStep track L inp k).player.fDistance = L ∧
       (RunningStep track L inp k).currentState = GameState.GAME_WIN ∧
       (RunningStep track L inp k).sound_win = true) ∧
    (k.currentState = GameState.GAME_WIN →
       (k.player.bCrashed = true ∨ ¬ boundaryHit k.player.fX_Register) →
       PhysicsIter track L inp k = { k with warnObstacle := false }) ∧
    (k.currentState = GameState.GAME_WIN → k.player.bCrashed = false →
       boundaryHit k.player.fX_Register →
       (PhysicsIter track L inp k).currentState = GameState.GAME_OVER ∧
       (PhysicsIter track L inp k).player.bCrashed = true) := by
  refine ⟨?_, ?_, ?_⟩
  · intro hs hdist
    refine ⟨?_, ?_, ?_⟩ <;> simp [RunningStep, hs, hdist]
  · intro hs hsafe
    unfold PhysicsIter
    rw [RunningStep_notRunning (by rw [hs]; exact fun h => nomatch h),
        EnforceBoundaryProtection_id hsafe,
        CheckObstacleCollision_id (Or.inr (by rw [hs]; exact fun h => nomatch h)),
        WarningStage_notRunning (by rw [hs]; exact fun h => nomatch h)]
  · intro hs hc hhit
    unfold PhysicsIter
    rw [RunningStep_notRunning (by rw [hs]; exact fun h => nomatch h),
        EnforceBoundaryProtection_hit hc hhit,
        CheckObstacleCollision_id (Or.inl rfl)]
    have hw := WarningStage_fields track (crashedKernel k)
    exact ⟨by rw [hw.2.1]; rfl, by rw [hw.1]; rfl⟩

/-- Witness for C1: a Win-state kernel with the vehicle inside the road limits
is left unchanged by a physics iteration apart from the warning flag. -/
theorem C1_win_freeze_witness :
    PhysicsIter (BuildTrackData 1) 1000 ⟨0, false, false⟩
        (mkKernel 0 1000 GameState.GAME_WIN false)
      = { mkKernel 0 1000 GameState.GAME_WIN false with warnObstacle := false } :=
  (C1_win_freeze (BuildTrackData 1) 1000 ⟨0, false, false⟩
      (mkKernel 0 1000 GameState.GAME_WIN false)).2.1 rfl
    (Or.inr (by norm_num [boundaryHit, mkKernel, ROAD_WIDTH_LIMIT,
                          PLAYER_HALF_WIDTH]))

/-- C7 counterexample: in the Running state with the crashed flag set and the
steering input held right, the step changes both the lateral offset and the
heading away from 0: the lateral/heading updates are not skipped for a crashed
vehicle. -/
theorem C7_counterexample :
    (RunningStep (BuildTrackData 1) 1000 ⟨1, false, false⟩
        (mkKernel 0 0 GameState.KERNEL_RUNNING true)).player.fX_Register ≠ 0 ∧
    (RunningStep (BuildTrackData 1) 1000 ⟨1, false, false⟩
        (mkKernel 0 0 GameState.KERNEL_RUNNING true)).player.fHeadingAngle ≠ 0 := by
  have h := RunningStep_crashed_fields (BuildTrackData 1) 1000 ⟨1, false, false⟩
    (mkKernel 0 0 GameState.KERNEL_RUNNING true) rfl rfl
  constructor
  · rw [h.2.2.1]
    norm_num [mkKernel, STEER_COMPENSATION, DELTA_T]
  · rw [h.2.2.2]
    norm_num [mkKernel, HEADING_TURN_SPEED, DELTA_T]

/-- C7 (amended): a crashed vehicle in a Running-state step has its speed
forced to 0 and (below the track length) its distance unchanged, but the
lateral-offset and heading updates are not skipped: x changes by exactly
steerIntent·0.5·STEER_COMPENSATION·40·dt and the heading turns or decays per
the steering rule; x and heading are both unchanged when the steering intent
is 0 and the heading is 0, while any nonzero steering intent changes x.  In
every non-Running state (in particular Over, which each crash sets together
with the crashed flag) the step leaves the whole kernel unchanged. -/
theorem C7_crashed_step (track : List TrackSegment) (L : ℚ) (inp : Inputs)
    (k : Kernel) :
    (k.currentState ≠ GameState.KERNEL_RUNNING → RunningStep track L inp k = k) ∧
    (k.currentState = GameState.KERNEL_RUNNING → k.player.bCrashed = true →
      (RunningStep track L inp k).player.fSpeed = 0 ∧
      (k.player.fDistance < L →
         (RunningStep track L inp k).player.fDistance = k.player.fDistance) ∧
      (RunningStep track L inp k).player.fX_Register
        = k.player.fX_Register
          + (inp.input_steer : ℚ) * (1/2) * STEER_COMPENSATION * 40 * DELTA_T ∧
      (RunningStep track L inp k).player.fHeadingAngle
        = (if inp.input_steer = -1 then
             k.player.fHeadingAngle - HEADING_TURN_SPEED * DELTA_T
           else if inp.input_steer = 1 then
             k.player.fHeadingAngle + HEADING_TURN_SPEED * DELTA_T
           else k.player.fHeadingAngle * (19/20)) ∧
      ((inp.input_steer = 0 ∧ k.player.fHeadingAngle = 0) →
         (RunningStep track L inp k).player.fX_Register = k.player.fX_Register ∧
         (RunningStep track L inp k).player.fHeadingAngle
           = k.player.fHeadingAngle) ∧
      (inp.input_steer ≠ 0 →
         (RunningStep track L inp k).player.fX_Register
           ≠ k.player.fX_Register)) := by
  refine ⟨fun h => RunningStep_notRunning h, fun hs hc => ?_⟩
  obtain ⟨h1, h2, h3, h4⟩ := RunningStep_crashed_fields track L inp k hs hc
  refine ⟨h1, ?_, h3, h4, ?_, ?_⟩
  · intro hd
    rw [h2, if_neg (not_le.mpr hd)]
  · rintro ⟨hst, hh⟩
    constructor
    · rw [h3, hst]; norm_num
    · rw [h4, hst, hh]; norm_num
  · intro hst
    rw [h3]
    intro heq
    have hzero : (inp.input_steer : ℚ) * (1/2) * STEER_COMPENSATION * 40 * DELTA_T
        = 0 := by linarith
    norm_num [STEER_COMPENSATION, DELTA_T] at hzero
    exact hst hzero

/-- Witness for C7: a crashed Running-state vehicle has its speed forced to
zero by the step. -/
theorem C7_crashed_step_witness :
    (RunningStep (BuildTrackData 1) 1000 ⟨0, false, false⟩
        (mkKernel (1/2) 5 GameState.KERNEL_RUNNING true)).player.fSpeed = 0 :=
  ((C7_crashed_step (BuildTrackData 1) 1000 ⟨0, false, false⟩
      (mkKernel (1/2) 5 GameState.KERNEL_RUNNING true)).2 rfl rfl).1

/-- C9: the boundary check runs on every physics iteration with no Game-State
guard — its only guard is the crashed flag — so whenever the vehicle reaching
the boundary check is not crashed and out of the road limits the iteration
sets crashed, zeroes the speed, moves the Game State to Over and raises the
crash and game-over signals; in every non-Running state (Win, MapSelect,
BootMenu, Over, Halt) this applies verbatim to the pre-iteration vehicle,
since the running block does not touch it. -/
theorem C9_boundary_unguarded (track : List TrackSegment) (L : ℚ) (inp : Inputs)
    (k : Kernel) :
    (k.player.bCrashed = false →
       boundaryHit (RunningStep track L inp k).player.fX_Register →
       (PhysicsIter track L inp k).player.bCrashed = true ∧
       (PhysicsIter track L inp k).player.fSpeed = 0 ∧
       (PhysicsIter track L inp k).currentState = GameState.GAME_OVER ∧
       (PhysicsIter track L inp k).sound_crash = true ∧
       (PhysicsIter track L inp k).sound_gameover = true) ∧
    (k.currentState ≠ GameState.KERNEL_RUNNING → k.player.bCrashed = false →
       boundaryHit k.player.fX_Register →
       (PhysicsIter track L inp k).currentState = GameState.GAME_OVER ∧
       (PhysicsIter track L inp k).player.bCrashed = true) := by
  constructor
  · intro hc hhit
    have hc1 : (RunningStep track L inp k).player.bCrashed = false := by
      rw [RunningStep_bCrashed]; exact hc
    unfold PhysicsIter
    rw [EnforceBoundaryProtection_hit hc1 hhit,
        CheckObstacleCollision_id (Or.inl rfl)]
    have hw := WarningStage_fields track
      (crashedKernel (RunningStep track L inp k))
    refine ⟨?_, ?_, ?_, ?_, ?_⟩
    · rw [hw.1]; rfl
    · rw [hw.1]; rfl
    · rw [hw.2.1]; rfl
    · rw [hw.2.2.1]; rfl
    · rw [hw.2.2.2.1]; rfl
  · intro hns hc hhit
    unfold PhysicsIter
    rw [RunningStep_notRunning hns, EnforceBoundaryProtection_hit hc hhit,
        CheckObstacleCollision_id (Or.inl rfl)]
    have hw := WarningStage_fields track (crashedKernel k)
    exact ⟨by rw [hw.2.1]; rfl, by rw [hw.1]; rfl⟩

/-- Witness for C9: in the MapSelect state an uncrashed vehicle at x = 2 is
crashed by the iteration and the Game State jumps to Over. -/
theorem C9_boundary_unguarded_witness :
    (PhysicsIter (BuildTrackData 1) 1000 ⟨0, false, false⟩
        (mkKernel 2 0 GameState.MAP_SELECT false)).currentState
      = GameState.GAME_OVER ∧
    (PhysicsIter (BuildTrackData 1) 1000 ⟨0, false, false⟩
        (mkKernel 2 0 GameState.MAP_SELECT false)).player.bCrashed = true :=
  (C9_boundary_unguarded (BuildTrackData 1) 1000 ⟨0, false, false⟩
      (mkKernel 2 0 GameState.MAP_SELECT false)).2
    (by decide) rfl
    (by norm_num [boundaryHit, mkKernel, ROAD_WIDTH_LIMIT, PLAYER_HALF_WIDTH])

/-- C10: no operation bounds the distance below by zero: a Running-state step
of an uncrashed vehicle that stays below the track length updates the
distance to exactly distance + clampedSpeed·dt with no lower clamp; the speed
clamp's lower bound is −15; and from the default state with the brake held
and the accelerator released, a single physics step already yields a strictly
negative distance. -/
theorem C10_negative_distance :
    (∀ (track : List TrackSegment) (L : ℚ) (inp : Inputs) (k : Kernel),
       k.currentState = GameState.KERNEL_RUNNING →
       k.player.fDistance + clampSpeed (speedControl inp k.player) * DELTA_T < L →
       (RunningStep track L inp k).player.fDistance
         = k.player.fDistance + clampSpeed (speedControl inp k.player) * DELTA_T) ∧
    (∀ s : ℚ, -15 ≤ clampSpeed s) ∧ clampSpeed (-20) = -15 ∧
    (RunningStep (BuildTrackData 1) 1000 ⟨0, false, true⟩
        (mkKernel 0 0 GameState.KERNEL_RUNNING false)).player.fDistance < 0 := by
  refine ⟨?_, ?_, ?_, ?_⟩
  · intro track L inp k hs hd
    simp [RunningStep, hs, not_le.mpr hd]
  · intro s
    exact le_max_left _ _
  · unfold clampSpeed MAX_SPEED
    rw [min_eq_right (by norm_num), max_eq_left (by norm_num)]
  · norm_num [RunningStep, mkKernel, speedControl, clampSpeed, FRICTION,
              DECELERATION, ACCELERATION, MAX_SPEED, DELTA_T, min_def, max_def]

/-- Witness for C10: from the default Running state with brake held, the step
advances distance by exactly clampedSpeed·dt. -/
theorem C10_negative_distance_witness :
    (RunningStep (BuildTrackData 1) 1000 ⟨0, false, true⟩
        (mkKernel 0 0 GameState.KERNEL_RUNNING false)).player.fDistance
      = (mkKernel 0 0 GameState.KERNEL_RUNNING false).player.fDistance
        + clampSpeed (speedControl ⟨0, false, true⟩
            (mkKernel 0 0 GameState.KERNEL_RUNNING false).player) * DELTA_T :=
  C10_negative_distance.1 (BuildTrackData 1) 1000 ⟨0, false, true⟩
    (mkKernel 0 0 GameState.KERNEL_RUNNING false) rfl
    (by norm_num [mkKernel, speedControl, clampSpeed, FRICTION, DECELERATION,
                  MAX_SPEED, DELTA_T, min_def, max_def])

end OSRacer
